import Mathlib

/-
Verification of the deferred in-place construction design sketched in
src/sketch.rs (a Pre-RFC for `inplace` types in Rust).

The sketch is a design document with pseudo-Rust code.  We embed its data
model and operations shallowly:

* `Layout` models `alloc::Layout` (size and alignment of storage).
* `Deferred T` models `inplace T`: a handle carrying the layout of the
  not-yet-built value, the identifiers of the owned resources captured in
  its environment, and an infallible plan `Nat → T` that, given the final
  destination address, produces the value to be stored there.  The plan is
  a total function: all fallible work ran before the handle was created
  (the deferral point), so execution cannot fail — this invariant of the
  sketch is structural in the embedding.
* `DualValue T` models `?inplace T`: either an already-built value
  (`Direct`) or a deferred constructor (`Deferred`).
* `materialize` models the construction driver writing a dual value into a
  destination.
* `DstArray.append` models the container example of the sketch
  (src/sketch.rs lines 188-206), parametrised over the external allocator
  collaborator `alloc : Layout → σ → Option Nat × σ` (`System.alloc`,
  returning a null = `none` pointer on failure).  The result records the
  observable effects: success flag, updated container, allocator state,
  writes to newly allocated storage, resources released unexecuted, and
  the number of times the deferred plan ran.
* Addresses are modelled as natural numbers; memory as association lists
  from addresses to stored values.
-/

namespace InplaceSketch

/-- Storage requirement of a value or potential value: size and alignment,
modelling `alloc::Layout` of the sketch. -/
structure Layout where
  size : Nat
  align : Nat
  deriving Repr, DecidableEq

/-- A deferred constructor, modelling `inplace T`: the layout the built
value will have, the owned resources captured in the environment, and the
plan run at consumption time with the destination address as the implicit
output slot.  The plan is a total function: the sketch requires that all
fallible work completed before the handle existed. -/
structure Deferred (T : Type) where
  layout : Layout
  resources : List Nat
  plan : Nat → T

/-- A dual-mode value, modelling `?inplace T`: either an already-built
value or a deferred constructor. -/
inductive DualValue (T : Type) where
  | Direct : T → DualValue T
  | Deferred : Deferred T → DualValue T

/-- Layout query for an `inplace T` (src/sketch.rs line 40): reads the
metadata carried by the handle, never executes the plan. -/
def Layout.for_inplace_value {T : Type} (c : Deferred T) : Layout :=
  c.layout

/-- Layout query for a `?inplace T` (src/sketch.rs line 41): dispatches on
the tag, using the value itself in the `Direct` case (via the per-type
layout function `desc`, which for dynamically sized types may depend on
the value) and the handle metadata in the `Deferred` case. -/
def Layout.for_maybe_inplace_value {T : Type} (desc : T → Layout) :
    DualValue T → Layout
  | .Direct v => desc v
  | .Deferred c => c.layout

/-- Conversion rule 2 of the sketch (src/sketch.rs lines 56-57): an
already-evaluated value of type `T` is wrapped as a trivial deferred
constructor whose plan just moves the value into place. -/
def wrap_as_constructor {T : Type} (desc : T → Layout) (v : T) : Deferred T :=
  { layout := desc v, resources := [], plan := fun _ => v }

/-- Outcome of the construction driver. -/
inductive MatResult (T : Type) where
  | Completed : T → MatResult T
  | AllocationAbsent : MatResult T
  deriving Repr

/-- Caller-owned, already-allocated storage: address plus descriptor. -/
structure Destination where
  address : Nat
  layout : Layout
  deriving Repr, DecidableEq

/-- The construction driver: the `Direct` case moves the existing value
into the destination, the `Deferred` case invokes the plan with the
destination address as the output slot (conversion rule 1,
src/sketch.rs lines 53-54).  Storage is assumed already acquired; the
driver itself never allocates and never fails. -/
def materialize {T : Type} (dv : DualValue T) (dest : Destination) :
    MatResult T :=
  match dv with
  | .Direct v => .Completed v
  | .Deferred c => .Completed (c.plan dest.address)

/-- Lifecycle state of a deferred handle: still pending, or spent after
its single consumption.  The sketch enforces this by move-only ownership;
the embedding makes the same discipline explicit as a state. -/
inductive HandleState (T : Type) where
  | pending : Deferred T → HandleState T
  | spent : HandleState T

/-- Invoking a handle at an address: a pending handle runs its plan with
the address as output slot and becomes spent; a spent handle can no longer
be invoked at all. -/
def invokeAt {T : Type} : HandleState T → Nat → Option (T × HandleState T)
  | .pending c, a => some (c.plan a, .spent)
  | .spent, _ => none

/-- The hypothetical DST container of the sketch (src/sketch.rs
lines 188-191): a list of pointers to heap-allocated elements. -/
structure DstArray (T : Type) where
  pointers : List Nat
  deriving Repr, DecidableEq

/-- Observable outcome of one `append` call: the returned flag, the
container and allocator state afterwards, the writes performed to newly
allocated storage, the environment resources released without execution,
and how many times a deferred plan was run. -/
structure AppendResult (T σ : Type) where
  ok : Bool
  arr : DstArray T
  alloc_st : σ
  writes : List (Nat × T)
  released : List Nat
  planRuns : Nat

/-- Environment resources released when a dual value is dropped without
being materialized: a deferred constructor releases its captured
environment; a direct value is released by normal ownership rules (not
tracked here). -/
def releasedEnv {T : Type} : DualValue T → List Nat
  | .Direct _ => []
  | .Deferred c => c.resources

/-- `DstArray::append` (src/sketch.rs lines 194-205): query the layout of
the maybe-inplace value, ask the allocator for storage, return `false` on
a null pointer (dropping a deferred constructor unexecuted), otherwise
write the value in place at the new pointer, record the pointer, and
return `true`. -/
def DstArray.append {T σ : Type} (desc : T → Layout)
    (alloc : Layout → σ → Option Nat × σ)
    (arr : DstArray T) (st : σ) (value : DualValue T) : AppendResult T σ :=
  let layout := Layout.for_maybe_inplace_value desc value
  match alloc layout st with
  | (none, st') =>
      { ok := false, arr := arr, alloc_st := st', writes := [],
        released := releasedEnv value, planRuns := 0 }
  | (some p, st') =>
      match value with
      | .Direct v =>
          { ok := true, arr := ⟨arr.pointers ++ [p]⟩, alloc_st := st',
            writes := [(p, v)], released := [], planRuns := 0 }
      | .Deferred c =>
          { ok := true, arr := ⟨arr.pointers ++ [p]⟩, alloc_st := st',
            writes := [(p, c.plan p)], released := [], planRuns := 1 }

/-- A deferred constructor instrumented with an execution trace, used to
model composition (src/sketch.rs lines 133-161): `run` takes the
destination address and returns the built value together with the list of
(constructor id, address) invocation events in the order they occurred. -/
structure TracedCtor (T : Type) where
  layout : Layout
  run : Nat → T × List (Nat × Nat)

/-- An atomic traced constructor: invoking it at address `a` records one
event `(id, a)` and yields `f a`. -/
def childCtor {T : Type} (id : Nat) (l : Layout) (f : Nat → T) :
    TracedCtor T :=
  { layout := l, run := fun a => (f a, [(id, a)]) }

/-- A three-field aggregate, standing for a struct whose fields are built
by three child constructors. -/
structure Agg3 (A B C : Type) where
  f1 : A
  f2 : B
  f3 : C
  deriving Repr, DecidableEq

/-- Composition rule of the sketch (src/sketch.rs lines 158-161): a parent
constructor absorbs its child handles in declaration order; invoking the
parent at address `a` executes each child at its field slot `a + oᵢ`
inside the destination, in that order, and the aggregate is formed from
the child outputs directly at the destination — no event constructs the
aggregate anywhere else. -/
def compose3 {A B C : Type} (l : Layout) (o1 o2 o3 : Nat)
    (c1 : TracedCtor A) (c2 : TracedCtor B) (c3 : TracedCtor C) :
    TracedCtor (Agg3 A B C) :=
  { layout := l,
    run := fun a =>
      let r1 := c1.run (a + o1)
      let r2 := c2.run (a + o2)
      let r3 := c3.run (a + o3)
      (⟨r1.1, r2.1, r3.1⟩, r1.2 ++ r2.2 ++ r3.2) }

/-- The value type of the error-handling example (src/sketch.rs
lines 122-128). -/
structure Thing where
  val : Nat
  deriving Repr, DecidableEq

/-- The fallible step of `try_create_thing` that runs eagerly, before the
deferral point. -/
def fallible_code_executed_now (ok : Bool) : Option Unit :=
  if ok then some () else none

/-- `try_create_thing` (src/sketch.rs lines 122-128): all fallible work
runs before the deferral point; only if it succeeds is a deferred handle
created, whose plan is a total function and so can no longer fail. -/
def try_create_thing (ok : Bool) (l : Layout) (mk : Nat → Thing) :
    Option (Deferred Thing) :=
  match fallible_code_executed_now ok with
  | none => none
  | some _ => some { layout := l, resources := [], plan := fun a => mk a }

/-- A doubly-linked list head (src/sketch.rs lines 282-286), with the two
references modelled as destination addresses.  The `PhantomPinned` marker
field carries no data and is omitted. -/
structure ListHead where
  prev : Nat
  next : Nat
  deriving Repr, DecidableEq

/-- `ListHead::new` (src/sketch.rs lines 289-295): a deferred constructor
whose plan reads its own final destination address (`&inplace`) and stores
copies of it in both fields before returning. -/
def ListHead.new : Deferred ListHead :=
  { layout := ⟨16, 8⟩, resources := [], plan := fun a => ⟨a, a⟩ }

/-- A deferred constructor for one node of a two-node ring: it captures
the sibling node's committed destination address and stores it in both
reference fields of the value it builds. -/
def siblingCtor (sib : Nat) : Deferred ListHead :=
  { layout := ⟨16, 8⟩, resources := [], plan := fun _ => ⟨sib, sib⟩ }

/-- Memory after building the two-node self-referential ring: the two
destinations `a1` and `a2` are committed first, then each node's deferred
constructor is invoked at its own final address, storing the sibling's
address inside the value being built. -/
def buildRing (a1 a2 : Nat) : List (Nat × ListHead) :=
  [(a1, (siblingCtor a2).plan a1), (a2, (siblingCtor a1).plan a2)]

/-- Layout function used by concrete witnesses: every `Nat` value stored
as a 4-byte word. -/
def descNat : Nat → Layout := fun _ => ⟨4, 4⟩

/-- An allocator collaborator that is out of storage: every request yields
a null pointer. -/
def allocNone : Layout → Unit → Option Nat × Unit :=
  fun _ s => (none, s)

/-- A bump allocator with a bounded number of slots, modelling the
one-slot-allocator scenario: state is (slots remaining, next address);
when no slot remains the request yields a null pointer. -/
def allocSeq : Layout → Nat × Nat → Option Nat × (Nat × Nat) :=
  fun l st =>
    match st with
    | (0, nxt) => (none, (0, nxt))
    | (Nat.succ s, nxt) => (some nxt, (s, nxt + l.size))

/-- Claim C2: for every type T and value v, the descriptor of the built
value equals the descriptor of the deferred handle wrapping it
(`describe(v) == describe_deferred(wrap_as_constructor(v))`), and the
layout query on a handle reads only the carried metadata — it answers
identically for any plan, so it never executes the constructor, and being
a total function it never fails. -/
theorem C2_describe_agreement {T : Type} (desc : T → Layout) (v : T) :
    desc v = Layout.for_inplace_value (wrap_as_constructor desc v) ∧
    ∀ (l : Layout) (r : List Nat) (p p' : Nat → T),
      Layout.for_inplace_value ⟨l, r, p⟩ = Layout.for_inplace_value ⟨l, r, p'⟩ :=
  ⟨rfl, fun _ _ _ _ => rfl⟩

/-- Claim C7: materializing a `Direct v` wrapper into a destination whose
storage is sized per `describe(v)` moves the existing value into the
destination, yielding a value observably equal to `v`. -/
theorem C7_direct_materialize {T : Type} (desc : T → Layout) (v : T)
    (dest : Destination) (h : dest.layout = desc v) :
    materialize (DualValue.Direct v) dest = MatResult.Completed v :=
  rfl

/-- Witness for C7 at a concrete input. -/
theorem C7_direct_materialize_witness :
    (Destination.mk 100 (descNat 5)).layout = descNat 5 ∧
    materialize (DualValue.Direct 5) (Destination.mk 100 (descNat 5)) =
      MatResult.Completed 5 :=
  ⟨rfl, C7_direct_materialize descNat 5 (Destination.mk 100 (descNat 5)) rfl⟩

/-- Claim C4: a pending deferred constructor invoked at address A runs the
captured plan with A as the implicit output slot and yields the built
value with the handle now spent; a spent handle can never be invoked
again, at any address; consequently one `append` call runs a deferred plan
at most once. -/
theorem C4_consumed_exactly_once {T σ : Type} (c : Deferred T) (a : Nat)
    (desc : T → Layout) (alloc : Layout → σ → Option Nat × σ)
    (arr : DstArray T) (st : σ) :
    invokeAt (HandleState.pending c) a = some (c.plan a, HandleState.spent) ∧
    (∀ a', invokeAt (HandleState.spent : HandleState T) a' = none) ∧
    (DstArray.append desc alloc arr st (DualValue.Deferred c)).planRuns ≤ 1 := by
  refine ⟨rfl, fun a' => rfl, ?_⟩
  rcases h : alloc c.layout st with ⟨po, st'⟩
  cases po <;> simp [DstArray.append, Layout.for_maybe_inplace_value, h]

/-- Claim C6: a composed constructor whose children were absorbed in
declaration order executes, on one invocation, child 1 then child 2 then
child 3 (the trace is the in-order concatenation of the child traces),
each aggregate field equals the corresponding child's output, and with
atomic children the trace shows every construction event happening at a
field slot inside the destination itself — no event builds the aggregate
at an intermediate location. -/
theorem C6_composition_order {A B C : Type} (l : Layout) (o1 o2 o3 : Nat)
    (i1 i2 i3 : Nat) (l1 l2 l3 : Layout)
    (f1 : Nat → A) (f2 : Nat → B) (f3 : Nat → C) (a : Nat)
    (c1 : TracedCtor A) (c2 : TracedCtor B) (c3 : TracedCtor C) :
    (compose3 l o1 o2 o3 c1 c2 c3).run a =
      ((Agg3.mk (c1.run (a + o1)).1 (c2.run (a + o2)).1 (c3.run (a + o3)).1),
        (c1.run (a + o1)).2 ++ (c2.run (a + o2)).2 ++ (c3.run (a + o3)).2) ∧
    (compose3 l o1 o2 o3 (childCtor i1 l1 f1) (childCtor i2 l2 f2)
        (childCtor i3 l3 f3)).run a =
      (Agg3.mk (f1 (a + o1)) (f2 (a + o2)) (f3 (a + o3)),
        [(i1, a + o1), (i2, a + o2), (i3, a + o3)]) :=
  ⟨rfl, rfl⟩

/-- Claim C1: inserting a logical value via the Direct path and via the
Deferred path (a constructor that, when executed, produces that value and
reports the same layout) yield the same observable outcome: same returned
flag, equal containers, same allocator state, and identical writes to the
new storage.  The paths differ only in when/where construction happens
(the `planRuns` instrumentation), which the claim excludes from
observational equivalence. -/
theorem C1_dual_paths_equivalent {T σ : Type} (desc : T → Layout)
    (alloc : Layout → σ → Option Nat × σ) (arr : DstArray T) (st : σ)
    (v : T) (c : Deferred T)
    (hl : c.layout = desc v) (hp : ∀ a, c.plan a = v) :
    (DstArray.append desc alloc arr st (DualValue.Direct v)).ok =
      (DstArray.append desc alloc arr st (DualValue.Deferred c)).ok ∧
    (DstArray.append desc alloc arr st (DualValue.Direct v)).arr =
      (DstArray.append desc alloc arr st (DualValue.Deferred c)).arr ∧
    (DstArray.append desc alloc arr st (DualValue.Direct v)).alloc_st =
      (DstArray.append desc alloc arr st (DualValue.Deferred c)).alloc_st ∧
    (DstArray.append desc alloc arr st (DualValue.Direct v)).writes =
      (DstArray.append desc alloc arr st (DualValue.Deferred c)).writes := by
  rcases h : alloc (desc v) st with ⟨po, st'⟩
  cases po <;>
    simp [DstArray.append, Layout.for_maybe_inplace_value, hl, h, hp]

/-- Witness for C1 at a concrete input: appending the value 5 directly and
appending its trivial deferred wrapper produce equal containers. -/
theorem C1_dual_paths_equivalent_witness :
    (wrap_as_constructor descNat 5).layout = descNat 5 ∧
    (∀ a, (wrap_as_constructor descNat 5).plan a = 5) ∧
    (DstArray.append descNat allocSeq ⟨[]⟩ (1, 100) (DualValue.Direct 5)).arr =
      (DstArray.append descNat allocSeq ⟨[]⟩ (1, 100)
        (DualValue.Deferred (wrap_as_constructor descNat 5))).arr := by
  refine ⟨rfl, fun a => rfl, ?_⟩
  exact (C1_dual_paths_equivalent descNat allocSeq ⟨[]⟩ (1, 100) 5
    (wrap_as_constructor descNat 5) rfl (fun _ => rfl)).2.1

/-- Claim C3: the construction driver is infallible given a valid
destination — it always completes, for both Direct and Deferred inputs; a
handle produced past the deferral point of `try_create_thing` likewise
always materializes to a valid `Thing`; and whenever `append` reports
failure the `AllocationAbsent` outcome came from the upstream allocator
(which returned a null pointer) with the deferred plan never run. -/
theorem C3_driver_infallible {T σ : Type} (desc : T → Layout) :
    (∀ (dv : DualValue T) (dest : Destination),
        ∃ v, materialize dv dest = MatResult.Completed v) ∧
    (∀ (ok : Bool) (l : Layout) (mk : Nat → Thing) (c : Deferred Thing),
        try_create_thing ok l mk = some c →
        ∀ dest, materialize (DualValue.Deferred c) dest =
          MatResult.Completed (mk dest.address)) ∧
    (∀ (alloc : Layout → σ → Option Nat × σ) (arr : DstArray T) (st : σ)
        (value : DualValue T),
        (DstArray.append desc alloc arr st value).ok = false →
          (alloc (Layout.for_maybe_inplace_value desc value) st).1 = none ∧
          (DstArray.append desc alloc arr st value).planRuns = 0) := by
  refine ⟨fun dv dest => ?_, fun ok l mk c hc dest => ?_, fun alloc arr st value hf => ?_⟩
  · cases dv <;> exact ⟨_, rfl⟩
  · cases ok with
    | false => simp [try_create_thing, fallible_code_executed_now] at hc
    | true =>
        simp [try_create_thing, fallible_code_executed_now] at hc
        subst hc
        rfl
  · cases value with
    | Direct v =>
        rcases h : alloc (desc v) st with ⟨po, st'⟩
        cases po <;>
          simp [DstArray.append, Layout.for_maybe_inplace_value, h] at hf ⊢
    | Deferred c =>
        rcases h : alloc c.layout st with ⟨po, st'⟩
        cases po <;>
          simp [DstArray.append, Layout.for_maybe_inplace_value, h] at hf ⊢

/-- Witness for C3 at a concrete input: a handle created by
`try_create_thing` materializes successfully, and an `append` that failed
did so because the allocator returned a null pointer, with the plan never
run. -/
theorem C3_driver_infallible_witness :
    try_create_thing true ⟨4, 4⟩ Thing.mk =
      some ⟨⟨4, 4⟩, [], fun a => Thing.mk a⟩ ∧
    materialize (DualValue.Deferred ⟨⟨4, 4⟩, [], fun a => Thing.mk a⟩)
      (Destination.mk 7 ⟨4, 4⟩) = MatResult.Completed (Thing.mk 7) ∧
    (DstArray.append descNat allocNone ⟨[]⟩ () (DualValue.Direct 5)).ok = false ∧
    (allocNone (Layout.for_maybe_inplace_value descNat (DualValue.Direct 5)) ()).1 = none ∧
    (DstArray.append descNat allocNone ⟨[]⟩ () (DualValue.Direct 5)).planRuns = 0 := by
  have h2 := (C3_driver_infallible (T := Nat) (σ := Unit) descNat).2.1 true ⟨4, 4⟩
    Thing.mk ⟨⟨4, 4⟩, [], fun a => Thing.mk a⟩ rfl (Destination.mk 7 ⟨4, 4⟩)
  have h3 := (C3_driver_infallible (σ := Unit) descNat).2.2 allocNone ⟨[]⟩ ()
    (DualValue.Direct 5) rfl
  exact ⟨rfl, h2, rfl, h3.1, h3.2⟩

/-- Claim C5: when the allocator fails, `append` surfaces the failure to
the caller (returns false) and the pending deferred constructor is
released unexecuted: the resources released are exactly the N captured
resources, once each (no duplicates when the captures were distinct), and
the deferred plan was never run, even in part. -/
theorem C5_release_unexecuted {T σ : Type} (desc : T → Layout)
    (alloc : Layout → σ → Option Nat × σ) (arr : DstArray T) (st : σ)
    (c : Deferred T) (st' : σ)
    (hfail : alloc c.layout st = (none, st')) :
    (DstArray.append desc alloc arr st (DualValue.Deferred c)).ok = false ∧
    (DstArray.append desc alloc arr st (DualValue.Deferred c)).released =
      c.resources ∧
    (DstArray.append desc alloc arr st (DualValue.Deferred c)).released.length =
      c.resources.length ∧
    (c.resources.Nodup →
      (DstArray.append desc alloc arr st (DualValue.Deferred c)).released.Nodup) ∧
    (DstArray.append desc alloc arr st (DualValue.Deferred c)).planRuns = 0 := by
  simp [DstArray.append, Layout.for_maybe_inplace_value, hfail, releasedEnv]

/-- Witness for C5 at a concrete input: a constructor that captured the
three resources 1, 2, 3 releases exactly those when allocation fails. -/
theorem C5_release_unexecuted_witness :
    allocNone (⟨4, 4⟩ : Layout) () = (none, ()) ∧
    (DstArray.append descNat allocNone ⟨[]⟩ ()
      (DualValue.Deferred ⟨⟨4, 4⟩, [1, 2, 3], fun _ => 5⟩)).released =
      [1, 2, 3] ∧
    (DstArray.append descNat allocNone ⟨[]⟩ ()
      (DualValue.Deferred ⟨⟨4, 4⟩, [1, 2, 3], fun _ => 5⟩)).planRuns = 0 := by
  have h := C5_release_unexecuted descNat allocNone ⟨[]⟩ ()
    ⟨⟨4, 4⟩, [1, 2, 3], fun _ => 5⟩ () rfl
  exact ⟨rfl, h.2.1, h.2.2.2.2⟩

/-- Claim C8: the destination address given to a deferred constructor is
final and the plan may read it and store copies of it in the value being
built (`ListHead::new` stores its own address in both fields); in the
two-node ring where each node's constructor stores its sibling's committed
destination address, following the stored references from either node
reaches the other, and every stored reference resolves to an allocated
node — no dangling address. -/
theorem C8_self_referential_ring (a1 a2 : Nat) (h : a1 ≠ a2) :
    ListHead.new.plan a1 = ListHead.mk a1 a1 ∧
    (buildRing a1 a2).lookup a1 = some (ListHead.mk a2 a2) ∧
    (buildRing a1 a2).lookup a2 = some (ListHead.mk a1 a1) ∧
    (∀ e ∈ buildRing a1 a2,
        ((buildRing a1 a2).lookup e.2.next).isSome = true ∧
        ((buildRing a1 a2).lookup e.2.prev).isSome = true) := by
  have hb : (a1 == a2) = false := beq_eq_false_iff_ne.mpr h
  have hb' : (a2 == a1) = false := beq_eq_false_iff_ne.mpr (Ne.symm h)
  refine ⟨rfl, ?_, ?_, ?_⟩
  · simp [buildRing, siblingCtor, List.lookup]
  · simp [buildRing, siblingCtor, List.lookup, hb, hb']
  · intro e he
    rcases List.mem_pair.mp (by simpa [buildRing, siblingCtor] using he) with
      he' | he' <;> subst he' <;>
      simp [buildRing, siblingCtor, List.lookup, hb, hb']

/-- Witness for C8 at concrete addresses 0 and 1. -/
theorem C8_self_referential_ring_witness :
    (0 : Nat) ≠ 1 ∧
    (buildRing 0 1).lookup 0 = some (ListHead.mk 1 1) ∧
    (buildRing 0 1).lookup 1 = some (ListHead.mk 0 0) :=
  ⟨by decide, (C8_self_referential_ring 0 1 (by decide)).2.1,
    (C8_self_referential_ring 0 1 (by decide)).2.2.1⟩

/-- Claim C10: if the allocator returns a null pointer, `append` returns
false and leaves the container exactly as it was, with no pointer appended
and no write to new storage; `append` returns true exactly when allocation
succeeded, and then exactly one pointer — the allocated one — is appended. -/
theorem C10_append_alloc_atomicity {T σ : Type} (desc : T → Layout)
    (alloc : Layout → σ → Option Nat × σ) (arr : DstArray T) (st : σ)
    (value : DualValue T) :
    (∀ st', alloc (Layout.for_maybe_inplace_value desc value) st = (none, st') →
        (DstArray.append desc alloc arr st value).ok = false ∧
        (DstArray.append desc alloc arr st value).arr = arr ∧
        (DstArray.append desc alloc arr st value).writes = []) ∧
    ((DstArray.append desc alloc arr st value).ok = true ↔
        (alloc (Layout.for_maybe_inplace_value desc value) st).1.isSome = true) ∧
    (∀ p st', alloc (Layout.for_maybe_inplace_value desc value) st = (some p, st') →
        (DstArray.append desc alloc arr st value).arr.pointers =
          arr.pointers ++ [p]) := by
  rcases h : alloc (Layout.for_maybe_inplace_value desc value) st with ⟨po, st'⟩
  cases value <;> cases po <;>
    simp [DstArray.append, Layout.for_maybe_inplace_value] at h ⊢ <;>
    simp [DstArray.append, Layout.for_maybe_inplace_value, h]

/-- Witness for C10 at concrete inputs: a failing allocator leaves the
container `[7]` untouched, a succeeding one appends exactly the allocated
pointer 100. -/
theorem C10_append_alloc_atomicity_witness :
    allocNone (Layout.for_maybe_inplace_value descNat (DualValue.Direct 5)) () =
      (none, ()) ∧
    (DstArray.append descNat allocNone ⟨[7]⟩ () (DualValue.Direct 5)).arr =
      ⟨[7]⟩ ∧
    allocSeq (Layout.for_maybe_inplace_value descNat (DualValue.Direct 5)) (1, 100) =
      (some 100, (0, 104)) ∧
    (DstArray.append descNat allocSeq ⟨[7]⟩ (1, 100) (DualValue.Direct 5)).arr.pointers =
      [7] ++ [100] := by
  refine ⟨rfl, ?_, rfl, ?_⟩
  · exact ((C10_append_alloc_atomicity descNat allocNone ⟨[7]⟩ ()
      (DualValue.Direct 5)).1 () rfl).2.1
  · exact (C10_append_alloc_atomicity descNat allocSeq ⟨[7]⟩ (1, 100)
      (DualValue.Direct 5)).2.2 100 (0, 104) rfl

end InplaceSketch
